import Mathlib

/-!
Verification of the isolation-forest counterfactual search
(`ceml/sklearn/isolationforest.py`).

Inputs are modelled as lists of rationals (numpy float vectors).  Trees of
the fitted ensemble are external collaborators: each member exposes a
decision-path-length operation and a traversable node structure.
-/

namespace Ceml

/-- A data point: an ordered, fixed-length numeric tuple. -/
abbrev Input := List ℚ

/-- A resolved regularizer: callable as `cost(delta_vector) -> scalar`. -/
abbrev Reg := List ℚ → ℚ

/-- One traversal step of a decision path: the feature tested, the
comparison threshold and the direction taken (`right = true` means the
`x[feature] > threshold` branch). -/
structure Step where
  feature : ℕ
  threshold : ℚ
  right : Bool
deriving DecidableEq, Repr

/-- A decision path: root-to-leaf sequence of steps. -/
abbrev Path := List Step

/-- Traversable node structure of a fitted tree (`model.tree_`): internal
nodes carry a split feature and threshold; `x` goes left when
`x[feature] <= threshold`. -/
inductive SkTree where
  | leaf : SkTree
  | node (feature : ℕ) (threshold : ℚ) (left right : SkTree) : SkTree
deriving Repr

/-- Modelled from the spec: `get_leafs_from_tree` lives in
`ceml/sklearn/tree.py`, which is not part of the sources at hand.  Per the
Path Extractor contract it traverses the tree from the root, recording at
each internal node the (feature, threshold, direction) triple, and emits
one path per leaf reached. -/
def get_leafs_from_tree : SkTree → List Path
  | .leaf => [[]]
  | .node f t l r =>
      (get_leafs_from_tree l).map (fun p => ⟨f, t, false⟩ :: p) ++
      (get_leafs_from_tree r).map (fun p => ⟨f, t, true⟩ :: p)

/-- Decision path of `x` in a tree (`model.decision_path([x])[0].indices`,
re-expressed as the sequence of split steps taken): left when
`x[feature] <= threshold`, right otherwise. -/
def decisionPath (t : SkTree) (x : Input) : Path :=
  match t with
  | .leaf => []
  | .node f th l r =>
      if x.getD f 0 ≤ th then ⟨f, th, false⟩ :: decisionPath l x
      else ⟨f, th, true⟩ :: decisionPath r x

/-- One member tree of the fitted ensemble, as the search sees it: the
collaborator's decision-path-length operation
(`model.decision_path([x])[0].sum()`) and the traversable structure
(`model.tree_`). -/
structure IsoTreeModel where
  pathLen : Input → ℕ
  tree_ : SkTree

/-- Modelled from the spec: the small offset used by the Adjustment Scorer
in `ceml/sklearn/tree.py` (not in the sources at hand) to move a feature
"just past the threshold" when the required direction is the strict
`x[feature] > threshold` branch. -/
def adjustEps : ℚ := 1 / 1000

/-- Whether `x`'s actual feature value would take the opposite direction at
this step's threshold. -/
def stepDisagrees (x : Input) (s : Step) : Bool :=
  if s.right then decide (x.getD s.feature 0 ≤ s.threshold)
  else decide (s.threshold < x.getD s.feature 0)

/-- The minimal replacement value reproducing the step's direction: the
threshold itself for the `<=` branch, just past it for the `>` branch. -/
def requiredValue (s : Step) : ℚ :=
  if s.right then s.threshold + adjustEps else s.threshold

/-- Insert or overwrite the entry for feature `i` in a sparse adjustment
mapping; a feature touched by several disagreeing steps keeps only the
last-applied required value. -/
def upsertAdj (adj : List (ℕ × ℚ)) (i : ℕ) (v : ℚ) : List (ℕ × ℚ) :=
  match adj with
  | [] => [(i, v)]
  | (j, w) :: rest => if j = i then (i, v) :: rest else (j, w) :: upsertAdj rest i v

/-- Modelled from the spec: the per-path adjustment built by the Adjustment
Scorer of `ceml/sklearn/tree.py` (not in the sources at hand) — walk the
candidate path and, for each step whose direction disagrees with what `x`'s
actual feature value would produce, record the minimal perturbation of that
feature. -/
def computeAdjustment (x : Input) (p : Path) : List (ℕ × ℚ) :=
  p.foldl (fun adj s => if stepDisagrees x s then upsertAdj adj s.feature (requiredValue s) else adj) []

/-- Modelled from the spec: `apply_adjustment` of `ceml/sklearn/tree.py`
(not in the sources at hand) — materialize an adjustment by overwriting the
adjusted coordinates onto a copy of `x`. -/
def apply_adjustment (x : Input) : List (ℕ × ℚ) → Input
  | [] => x
  | (i, v) :: rest => apply_adjustment (x.set i v) rest

/-- Delta between two equally long vectors (numpy `a - b`). -/
def vecSub (a b : Input) : List ℚ :=
  List.zipWith (fun u v => u - v) a b

/-- Stable insertion into a cost-sorted list: ties keep the earlier
element first. -/
def insertByCost (a : ℚ × Path × List (ℕ × ℚ)) :
    List (ℚ × Path × List (ℕ × ℚ)) → List (ℚ × Path × List (ℕ × ℚ))
  | [] => [a]
  | b :: l => if a.1 < b.1 then a :: b :: l else b :: insertByCost a l

/-- Stable sort by ascending cost. -/
def sortByCost (l : List (ℚ × Path × List (ℕ × ℚ))) : List (ℚ × Path × List (ℕ × ℚ)) :=
  l.foldr insertByCost []

/-- Modelled from the spec: `score_adjustments` of `ceml/sklearn/tree.py`
(not in the sources at hand) — for each candidate path build the adjustment
redirecting `x` along it, score it by the regularizer applied to the delta
between original and adjusted input, and return `(cost, path, adjustment)`
triples sorted ascending by cost (stable).  The current path of `x` is
accepted for interface fidelity but the adjustment is computed against
`x`'s actual feature values. -/
def score_adjustments (x : Input) (_path_of_x : Path) (paths : List Path) (reg : Reg) :
    List (ℚ × Path × List (ℕ × ℚ)) :=
  sortByCost (paths.map (fun p =>
    let adj := computeAdjustment x p
    (reg (vecSub (apply_adjustment x adj) x), p, adj)))

/-- numpy `mean` over a list of scalars. -/
def npMean (l : List ℚ) : ℚ := l.sum / l.length

/-- Loss function of an isolation forest (`IsolationForestCost`): the
fields stored by `__init__`. -/
structure IsolationForestCost where
  models : List IsoTreeModel
  num_models : ℕ
  y_target : ℤ
  input_wrapper : Input → Input

/-- `IsolationForestCost.__init__(models, y_target, input_wrapper=None,
epsilon=0)`: stores the models, their count and the target; the
`input_wrapper` is handed to the parent class. -/
def IsolationForestCost.init (models : List IsoTreeModel) (y_target : ℤ)
    (input_wrapper : Input → Input) (epsilon : ℚ) : IsolationForestCost :=
  { models := models
    num_models := models.length
    y_target := y_target
    input_wrapper := input_wrapper }

/-- `IsolationForestCost.score_impl`: the negative averaged length of the
decision paths,
`-1. * y_target * np.mean([model.decision_path([x])[0].sum() for model in models])`. -/
def IsolationForestCost.score_impl (c : IsolationForestCost) (x : Input) : ℚ :=
  -1 * (c.y_target : ℚ) * npMean (c.models.map (fun m => (m.pathLen x : ℚ)))

/-- The wrapped `sklearn.ensemble.IsolationForest` collaborator: a predict
operation into {-1, +1} and the ordered member trees (`estimators_`). -/
structure IsolationForest where
  predict : Input → ℤ
  estimators_ : List IsoTreeModel

/-- `IsolationForest.get_loss`: builds the loss over `estimators_` for the
target label. -/
def IsolationForest.get_loss (m : IsolationForest) (y_target : ℤ)
    (input_wrapper : Input → Input) : IsolationForestCost :=
  IsolationForestCost.init m.estimators_ y_target input_wrapper 0

/-- Decidable equality for `Except` results, by cases on the two
constructors. -/
instance instDecEqExcept {ε α : Type} [DecidableEq ε] [DecidableEq α] :
    DecidableEq (Except ε α) := fun a b =>
  match a, b with
  | .error e, .error f =>
      if h : e = f then .isTrue (by rw [h]) else .isFalse (by intro hc; cases hc; exact h rfl)
  | .error _, .ok _ => .isFalse (by intro hc; cases hc)
  | .ok _, .error _ => .isFalse (by intro hc; cases hc)
  | .ok u, .ok v =>
      if h : u = v then .isTrue (by rw [h]) else .isFalse (by intro hc; cases hc; exact h rfl)

/-- The target path length `t` of
`__compute_counterfactuals_isolationtree`: depending on `y_target` we want
short or long paths — `np.min` of the lengths when `y_target == -1`, else
`np.max` (the lengths list is non-empty for a fitted tree, so the
`getD 0` fallback is never taken there). -/
def targetPathLength (length_paths : List (ℕ × Path)) (y_target : ℤ) : ℕ :=
  if y_target = -1 then ((length_paths.map Prod.fst).min?).getD 0
  else ((length_paths.map Prod.fst).max?).getD 0

/-- The path filter of `__compute_counterfactuals_isolationtree`, line
`filter(lambda z: np.abs(z[0] - t) < 2, length_paths)`. -/
def filterNearTarget (length_paths : List (ℕ × Path)) (t : ℕ) : List (ℕ × Path) :=
  length_paths.filter (fun z => ((z.1 : ℤ) - (t : ℤ)).natAbs < 2)

/-- The candidate vectors built by `__compute_counterfactuals_isolationtree`
before the whitelist filter: score the near-target-length leaf paths and
materialize each adjustment onto a copy of `x`. -/
def rawCandidates (m : IsoTreeModel) (x : Input) (y_target : ℤ) (reg : Reg) : List Input :=
  let path_of_x := decisionPath m.tree_ x
  let paths := get_leafs_from_tree m.tree_
  let length_paths := paths.map (fun p => (p.length, p))
  let t := targetPathLength length_paths y_target
  let near := filterNearTarget length_paths t
  let counterfactuals := score_adjustments x path_of_x (near.map Prod.snd) reg
  counterfactuals.map (fun cf => apply_adjustment x cf.2.2)

/-- The `used_protected_attributes` helper of
`__compute_counterfactuals_isolationtree`: `d = x - cf`; some index outside
the whitelist has `d[i] != 0`. -/
def used_protected_attributes (x cf : Input) (features_whitelist : List ℕ) : Bool :=
  let d := vecSub x cf
  (List.range d.length).any (fun i =>
    !(decide (i ∈ features_whitelist)) && ((d.getD i 0) != 0))

/-- `IsolationForestCounterfactual.__compute_counterfactuals_isolationtree`:
generate per-tree candidates, then — when a feature whitelist is supplied —
drop all counterfactuals with changes in protected attributes. -/
def compute_counterfactuals_isolationtree (m : IsoTreeModel) (x : Input) (y_target : ℤ)
    (features_whitelist : Option (List ℕ)) (reg : Reg) : List Input :=
  let counterfactuals := rawCandidates m x y_target reg
  match features_whitelist with
  | none => counterfactuals
  | some w => counterfactuals.filter (fun z => !used_protected_attributes x z w)

/-- `IsolationForestCounterfactual.__compute_initial_values`: start from
`[x]` and append every estimator's candidates in tree-iteration order. -/
def compute_initial_values (model : IsolationForest) (x : Input) (y_target : ℤ)
    (features_whitelist : Option (List ℕ)) (reg : Reg) : List Input :=
  [x] ++ (model.estimators_.map
    (fun m => compute_counterfactuals_isolationtree m x y_target features_whitelist reg)).flatten

/-- The `regularization` argument of `compute_counterfactual`: a string
description, an already-built callable cost function, or Python `None`. -/
inductive RegSpec where
  | name (s : String)
  | custom (f : Reg)
  | null

/-- The l1 regularizer: penalizes the absolute deviation. -/
def l1Reg : Reg := fun d => (d.map (fun v => |v|)).sum

/-- The l2 regularizer: penalizes the squared deviation. -/
def l2Reg : Reg := fun d => (d.map (fun v => v * v)).sum

/-- Modelled from the spec: `desc_to_regcost` of `ceml/sklearn/utils.py`
(not in the sources at hand) — recognized names are "l1" (absolute
deviation) and "l2" (squared deviation); any other name fails. -/
def desc_to_regcost (desc : String) (_x : Input) : Except String Reg :=
  if desc = "l1" then .ok l1Reg
  else if desc = "l2" then .ok l2Reg
  else .error "invalid regularization description"

/-- The TypeError message raised by `compute_counterfactual` when
`regularization` is neither a string nor callable. -/
def regTypeErrMsg : String :=
  "TypeError: regularization has to be either callable or a valid description of a supported regularization"

/-- The exhaustion error message of `compute_counterfactual`. -/
def noCfMsg : String :=
  "No counterfactual found - Consider changing parameters C, regularization, features_whitelist, optimizer and try again"

/-- The regularization dispatch at the top of `compute_counterfactual`:
`if isinstance(regularization, str): regularization = desc_to_regcost(...)
elif not callable(regularization): raise TypeError(...)`.  A string is
resolved by name; a callable cost function is kept; `None` is not a string
and not callable, so it falls into the TypeError branch. -/
def resolveRegularization (spec : RegSpec) (x : Input) : Except String Reg :=
  match spec with
  | .name s => desc_to_regcost s x
  | .custom f => .ok f
  | .null => .error regTypeErrMsg

/-- A black-box optimizer collaborator: `minimize(objective, x0) -> x_result`. -/
abbrev Optimizer := (Input → ℚ) → Input → Input

/-- `IsolationForestCounterfactual.build_loss` together with the
`RegularizedCost` combinator of `ceml/costfunctions` (the latter is not in
the sources at hand and is modelled from the spec): the combined objective
is the regularization term — distance from the original `x` — plus
`C` times the isolation-forest loss. -/
def build_loss (reg : Reg) (x_orig : Input) (y_target : ℤ)
    (estimators : List IsoTreeModel) (C : ℚ) : Input → ℚ :=
  fun z => reg (vecSub z x_orig) +
    C * (IsolationForestCost.init estimators y_target id 0).score_impl z

/-- Modelled from the spec: one `(starting point, C)` attempt of the search
loop.  `compute_counterfactual_ex` of `ceml/sklearn/counterfactual.py` (not
in the sources at hand) invokes the black-box optimizer on the combined
objective seeded at the starting point, evaluates the model's prediction on
the refined point, and reports `delta = x_cf - x`. -/
def tryAttempt (model : IsolationForest) (x : Input) (y_target : ℤ) (reg : Reg)
    (optimize : Optimizer) (att : Input × ℚ) : Input × ℤ × Input :=
  let loss := build_loss reg x y_target model.estimators_ att.2
  let x_cf := optimize loss att.1
  let y_cf := model.predict x_cf
  (x_cf, y_cf, vecSub x_cf x)

/-- The enumeration order of the nested loops
`for x0 in x_start: ... for c in C: ...` of `compute_counterfactual`: all
`C` values for one starting point before the next starting point. -/
def attemptSequence (x_start : List Input) (C : List ℚ) : List (Input × ℚ) :=
  x_start.flatMap (fun x0 => C.map (fun c => (x0, c)))

/-- The nested loops of `compute_counterfactual` with their early return:
walk the `(starting point, C)` attempts in order, return the first one
whose refined prediction the acceptance predicate accepts, and raise the
exhaustion error when the whole sequence is rejected. -/
def searchAttempts (done : ℤ → Bool) (attempt : Input × ℚ → Input × ℤ × Input)
    (seq : List (Input × ℚ)) : Except String (Input × ℤ × Input) :=
  match seq.findSome? (fun att =>
      let r := attempt att
      if done r.2.1 then some r else none) with
  | some r => .ok r
  | none => .error noCfMsg

/-- The `C` argument: a scalar or a list of regularization strengths. -/
abbrev CParam := ℚ ⊕ List ℚ

/-- The normalization `if not type(C) == list: C = [C]`. -/
def normalizeC (C : CParam) : List ℚ :=
  match C with
  | .inl c => [c]
  | .inr l => l

/-- `IsolationForestCounterfactual.compute_counterfactual`: resolve the
regularization, generate the starting points, resolve the acceptance
predicate `done` (defaulting to exact equality with `y_target`), and walk
the `(starting point, C)` cross-product in loop order, returning the first
attempt whose prediction is accepted; raise the exhaustion error
otherwise.  The advisory `warn_if_already_done` call has no effect on the
result and is not modelled; the dict/triple formatting both carry the same
`(x_cf, y_cf, delta)` data. -/
def compute_counterfactual (model : IsolationForest) (x : Input) (y_target : ℤ)
    (features_whitelist : Option (List ℕ)) (regspec : RegSpec) (C : CParam)
    (optimize : Optimizer) (done? : Option (ℤ → Bool)) :
    Except String (Input × ℤ × Input) :=
  match resolveRegularization regspec x with
  | .error e => .error e
  | .ok reg =>
    let x_start := compute_initial_values model x y_target features_whitelist reg
    let done := done?.getD (fun y => y == y_target)
    searchAttempts done (tryAttempt model x y_target reg optimize)
      (attemptSequence x_start (normalizeC C))

/-- `isolationforest_generate_counterfactual`: wraps the model and calls
`compute_counterfactual(x, y_target, features_whitelist, regularization, C,
optimizer, return_as_dict)` — the acceptance predicate `done` is not
forwarded, so it stays at its `None` default.  `return_as_dict` only
selects the result formatting, which carries the same data either way. -/
def isolationforest_generate_counterfactual (model : IsolationForest) (x : Input)
    (y_target : ℤ) (features_whitelist : Option (List ℕ)) (regspec : RegSpec)
    (C : CParam) (optimize : Optimizer) (_return_as_dict : Bool) :
    Except String (Input × ℤ × Input) :=
  compute_counterfactual model x y_target features_whitelist regspec C optimize none

/-! ### Concrete fixtures: a one-split tree, constant predictors and an
identity optimizer, used to evaluate the pipeline on closed inputs. -/

/-- A fitted tree with a single split on feature 0 at threshold 0. -/
def tree0 : SkTree := .node 0 0 .leaf .leaf

/-- A member tree whose decision-path-length operation is constantly 1. -/
def tmod0 : IsoTreeModel := ⟨fun _ => 1, tree0⟩

/-- A wrapped forest that always predicts the inlier class +1. -/
def modelConst1 : IsolationForest := ⟨fun _ => 1, [tmod0]⟩

/-- A wrapped forest whose prediction never equals ±1. -/
def modelConst0 : IsolationForest := ⟨fun _ => 0, [tmod0]⟩

/-- An optimizer that returns its starting point unchanged. -/
def optimId : Optimizer := fun _ x0 => x0

/-- A leaf path of length 3. -/
def pathA : Path := List.replicate 3 ⟨0, 0, false⟩

/-- A leaf path of length 5. -/
def pathB : Path := List.replicate 5 ⟨0, 0, false⟩

/-- A concrete loss over the single-tree ensemble with target +1. -/
def cost0 : IsolationForestCost := IsolationForestCost.init [tmod0] 1 id 0

/-! ### Claims -/

/-- C10: the `epsilon` constructor argument of `IsolationForestCost` is
accepted but never stored or read, so two losses built with different
epsilons score every input identically. -/
theorem claim_C10_epsilon_unused (models : List IsoTreeModel) (y_target : ℤ)
    (iw : Input → Input) (x : Input) (e1 e2 : ℚ) :
    (IsolationForestCost.init models y_target iw e1).score_impl x =
      (IsolationForestCost.init models y_target iw e2).score_impl x := rfl

/-- C8: the starting-point list of `__compute_initial_values` is non-empty
and its first element is the unmodified original input `x`, regardless of
what the per-tree generators contribute. -/
theorem claim_C8_initial_values_start_with_x (model : IsolationForest) (x : Input)
    (y_target : ℤ) (wl : Option (List ℕ)) (reg : Reg) :
    compute_initial_values model x y_target wl reg ≠ [] ∧
      (compute_initial_values model x y_target wl reg).head? = some x := by
  constructor <;> simp [compute_initial_values]

/-- Witness for C8 on the concrete one-tree forest. -/
theorem claim_C8_initial_values_start_with_x_witness :
    compute_initial_values modelConst1 [(5 : ℚ)] 1 none l1Reg ≠ [] ∧
      (compute_initial_values modelConst1 [(5 : ℚ)] 1 none l1Reg).head? =
        some [(5 : ℚ)] :=
  claim_C8_initial_values_start_with_x modelConst1 [(5 : ℚ)] 1 none l1Reg

/-- C2: calling `compute_counterfactual` with `regularization=None` raises
the TypeError — `None` is neither a string nor callable, so the
`elif not callable(regularization)` branch fires; the error raised is the
type error, not the exhaustion error, contradicting the claim (and the
function's own docstring) that `None` skips regularization. -/
theorem claim_C2_none_regularization_raises :
    compute_counterfactual modelConst1 [(5 : ℚ)] 1 none RegSpec.null (Sum.inl 1)
        optimId none = Except.error regTypeErrMsg ∧ regTypeErrMsg ≠ noCfMsg :=
  ⟨rfl, by decide⟩

/-- C3: with leaf paths of lengths 3 and 5 and the outlier target, the
target length is `t = 3` and the length-5 path sits at absolute distance
exactly 2 from `t`; the source filter `np.abs(z[0] - t) < 2` discards it,
although the claim (and the code's own comment) keeps paths within
distance 2. -/
theorem claim_C3_distance_two_discarded :
    targetPathLength ([pathA, pathB].map (fun p => (p.length, p))) (-1) = 3 ∧
      ((5 : ℤ) - (3 : ℤ)).natAbs = 2 ∧
      filterNearTarget ([pathA, pathB].map (fun p => (p.length, p)))
        (targetPathLength ([pathA, pathB].map (fun p => (p.length, p))) (-1)) =
        [(3, pathA)] := by
  decide

/-- C7: over a non-empty ensemble, the isolation-forest loss times the
number of trees equals `-y_target` times the summed decision-path lengths;
i.e. the loss is `-y_target` times the mean decision-path length of `x`
across the trees. -/
theorem claim_C7_loss_is_signed_mean_path_length (c : IsolationForestCost) (x : Input)
    (h : c.models ≠ []) :
    c.score_impl x * (c.models.length : ℚ) =
      -(c.y_target : ℚ) * ((c.models.map (fun m => (m.pathLen x : ℚ))).sum) := by
  have hlen : (c.models.length : ℚ) ≠ 0 := by
    exact_mod_cast fun hz => h (List.eq_nil_of_length_eq_zero (by exact_mod_cast hz))
  unfold IsolationForestCost.score_impl npMean
  rw [List.length_map]
  field_simp

/-- Witness for C7 at the concrete one-tree loss `cost0` and input `[5]`. -/
theorem claim_C7_loss_is_signed_mean_path_length_witness :
    cost0.score_impl [5] * (cost0.models.length : ℚ) =
      -(cost0.y_target : ℚ) * ((cost0.models.map (fun m => (m.pathLen [5] : ℚ))).sum) :=
  claim_C7_loss_is_signed_mean_path_length cost0 [5] (List.cons_ne_nil _ _)

/-- C6: over a non-empty leaf-path set, the target path length of the
per-tree generator is a member of the path-length list and a lower bound of
it (the minimum) when `y_target == -1`, and a member and an upper bound
(the maximum) otherwise. -/
theorem claim_C6_target_is_min_or_max (length_paths : List (ℕ × Path)) (y_target : ℤ)
    (h : length_paths ≠ []) :
    (y_target = -1 →
      targetPathLength length_paths y_target ∈ length_paths.map Prod.fst ∧
        ∀ l ∈ length_paths.map Prod.fst, targetPathLength length_paths y_target ≤ l) ∧
    (y_target ≠ -1 →
      targetPathLength length_paths y_target ∈ length_paths.map Prod.fst ∧
        ∀ l ∈ length_paths.map Prod.fst, l ≤ targetPathLength length_paths y_target) := by
  have hne : length_paths.map Prod.fst ≠ [] := by
    simpa using h
  constructor
  · intro hy
    cases hm : (length_paths.map Prod.fst).min? with
    | none => exact absurd (List.min?_eq_none_iff.mp hm) hne
    | some a =>
      have := List.min?_eq_some_iff'.mp hm
      simpa [targetPathLength, hy, hm] using this
  · intro hy
    cases hm : (length_paths.map Prod.fst).max? with
    | none => exact absurd (List.max?_eq_none_iff.mp hm) hne
    | some a =>
      have := List.max?_eq_some_iff'.mp hm
      simpa [targetPathLength, hy, hm] using this

/-- Witness for C6 at path lengths 3 and 5 with the outlier target. -/
theorem claim_C6_target_is_min_or_max_witness :
    ((-1 : ℤ) = -1 →
      targetPathLength [(3, pathA), (5, pathB)] (-1) ∈
          [(3, pathA), (5, pathB)].map Prod.fst ∧
        ∀ l ∈ [(3, pathA), (5, pathB)].map Prod.fst,
          targetPathLength [(3, pathA), (5, pathB)] (-1) ≤ l) ∧
    ((-1 : ℤ) ≠ -1 →
      targetPathLength [(3, pathA), (5, pathB)] (-1) ∈
          [(3, pathA), (5, pathB)].map Prod.fst ∧
        ∀ l ∈ [(3, pathA), (5, pathB)].map Prod.fst,
          l ≤ targetPathLength [(3, pathA), (5, pathB)] (-1)) :=
  claim_C6_target_is_min_or_max [(3, pathA), (5, pathB)] (-1) (List.cons_ne_nil _ _)

/-- C1 counterexample: in the attempt enumeration with starting points
`[[0], [1]]` and `C = [1.0, 0.1, 0.01]`, the attempt `([1], 1.0)` at
position 3 comes after the attempt `([0], 0.1)` at position 1, so it is
false that every starting point is attempted at `C = 1.0` before any
starting point is attempted at `C = 0.1`. -/
theorem claim_C1_c_outer_order_refuted :
    ¬ (∀ i j : ℕ,
        ((attemptSequence [[(0 : ℚ)], [(1 : ℚ)]] [1, 1/10, 1/100])[i]?.map Prod.snd
          = some 1) →
        ((attemptSequence [[(0 : ℚ)], [(1 : ℚ)]] [1, 1/10, 1/100])[j]?.map Prod.snd
          = some (1/10)) →
        i < j) := by
  intro hcl
  have h31 := hcl 3 1 rfl rfl
  omega

/-- C1 (amended): the nested loops `for x0 in x_start: for c in C:` try all
`C` values, in the given order, for one starting point before moving to the
next starting point — attempt number `i * |C| + j` is starting point `i`
paired with strength `j`. -/
theorem claim_C1_attempt_order (x_start : List Input) (C : List ℚ) (i j : ℕ)
    (hi : i < x_start.length) (hj : j < C.length) :
    (attemptSequence x_start C)[i * C.length + j]? = some (x_start[i], C[j]) := by
  induction x_start generalizing i with
  | nil => exact absurd hi (Nat.not_lt_zero _)
  | cons a l ih =>
    cases i with
    | zero =>
      simp only [attemptSequence, List.flatMap_cons, Nat.zero_mul, Nat.zero_add]
      rw [List.getElem?_append_left (by simpa using hj)]
      simp [List.getElem?_map, List.getElem?_eq_getElem hj]
    | succ i =>
      simp only [attemptSequence, List.flatMap_cons]
      rw [List.getElem?_append_right (by simp [Nat.succ_mul]; omega)]
      have harith : (i + 1) * C.length + j - (C.map (fun c => (a, c))).length =
          i * C.length + j := by
        simp [Nat.succ_mul]; omega
      rw [harith]
      simpa [attemptSequence] using ih i (Nat.lt_of_succ_lt_succ hi)

/-- Witness for C1 (amended): attempt `1 * 3 + 2` of two starting points
and three strengths is the second starting point at the third strength. -/
theorem claim_C1_attempt_order_witness :
    (attemptSequence [[(0 : ℚ)], [(1 : ℚ)]] [1, 1/10, 1/100])[1 * 3 + 2]? =
      some ([[(0 : ℚ)], [(1 : ℚ)]][1], ([(1 : ℚ), 1/10, 1/100])[2]) :=
  claim_C1_attempt_order [[(0 : ℚ)], [(1 : ℚ)]] [1, 1/10, 1/100] 1 2
    (by norm_num) (by norm_num)

/-- A successful search returns an accepted prediction. -/
lemma searchAttempts_ok (done : ℤ → Bool) (attempt : Input × ℚ → Input × ℤ × Input)
    (seq : List (Input × ℚ)) (r : Input × ℤ × Input)
    (h : searchAttempts done attempt seq = .ok r) : done r.2.1 = true := by
  unfold searchAttempts at h
  cases hfind : seq.findSome? (fun att =>
      let r := attempt att
      if done r.2.1 then some r else none) with
  | none => rw [hfind] at h; cases h
  | some b =>
    rw [hfind] at h
    cases h
    obtain ⟨a, _, ha⟩ := List.exists_of_findSome?_eq_some hfind
    simp only at ha
    by_cases hacc : done (attempt a).2.1 = true
    · rw [if_pos hacc] at ha
      cases ha
      exact hacc
    · rw [if_neg hacc] at ha
      cases ha

/-- A failed search carries the exhaustion message and every attempt in
the sequence was rejected. -/
lemma searchAttempts_error (done : ℤ → Bool) (attempt : Input × ℚ → Input × ℤ × Input)
    (seq : List (Input × ℚ)) (e : String)
    (h : searchAttempts done attempt seq = .error e) :
    e = noCfMsg ∧ ∀ att ∈ seq, done (attempt att).2.1 = false := by
  unfold searchAttempts at h
  cases hfind : seq.findSome? (fun att =>
      let r := attempt att
      if done r.2.1 then some r else none) with
  | some b => rw [hfind] at h; cases h
  | none =>
    rw [hfind] at h
    cases h
    refine ⟨rfl, ?_⟩
    intro att hatt
    have hn := List.findSome?_eq_none_iff.mp hfind att hatt
    simp only at hn
    by_cases hacc : done (attempt att).2.1 = true
    · rw [if_pos hacc] at hn; cases hn
    · exact Bool.eq_false_iff.mpr hacc

/-- C4: once the regularization resolves, `compute_counterfactual` has
exactly two outcomes — it returns a result whose prediction satisfies the
acceptance predicate (default: equality with `y_target`), or it raises the
exhaustion error after every `(starting point, C)` attempt of the full
cross-product was rejected; no unaccepted result is ever returned. -/
theorem claim_C4_accept_or_exhaust (model : IsolationForest) (x : Input) (y_target : ℤ)
    (wl : Option (List ℕ)) (regspec : RegSpec) (C : CParam) (optimize : Optimizer)
    (done? : Option (ℤ → Bool)) (reg : Reg)
    (hreg : resolveRegularization regspec x = .ok reg) :
    (∃ r, compute_counterfactual model x y_target wl regspec C optimize done? = .ok r ∧
        (done?.getD (fun y => y == y_target)) r.2.1 = true) ∨
    (compute_counterfactual model x y_target wl regspec C optimize done? =
        .error noCfMsg ∧
      ∀ att ∈ attemptSequence (compute_initial_values model x y_target wl reg)
          (normalizeC C),
        (done?.getD (fun y => y == y_target))
          (tryAttempt model x y_target reg optimize att).2.1 = false) := by
  have hcc : compute_counterfactual model x y_target wl regspec C optimize done? =
      searchAttempts (done?.getD (fun y => y == y_target))
        (tryAttempt model x y_target reg optimize)
        (attemptSequence (compute_initial_values model x y_target wl reg)
          (normalizeC C)) := by
    unfold compute_counterfactual
    rw [hreg]
  rw [hcc]
  cases hres : searchAttempts (done?.getD (fun y => y == y_target))
      (tryAttempt model x y_target reg optimize)
      (attemptSequence (compute_initial_values model x y_target wl reg)
        (normalizeC C)) with
  | ok r =>
    exact Or.inl ⟨r, rfl, searchAttempts_ok _ _ _ _ hres⟩
  | error e =>
    obtain ⟨he, hall⟩ := searchAttempts_error _ _ _ _ hres
    exact Or.inr ⟨by rw [he], hall⟩

/-- Witness for C4 at the concrete always-inlier forest, where the first
attempt is accepted. -/
theorem claim_C4_witness :
    (∃ r, compute_counterfactual modelConst1 [(5 : ℚ)] 1 none (.name "l1") (.inl 1)
          optimId none = .ok r ∧
        ((none : Option (ℤ → Bool)).getD (fun y => y == (1 : ℤ))) r.2.1 = true) ∨
    (compute_counterfactual modelConst1 [(5 : ℚ)] 1 none (.name "l1") (.inl 1)
          optimId none = .error noCfMsg ∧
      ∀ att ∈ attemptSequence
          (compute_initial_values modelConst1 [(5 : ℚ)] 1 none l1Reg)
          (normalizeC (.inl 1)),
        ((none : Option (ℤ → Bool)).getD (fun y => y == (1 : ℤ)))
          (tryAttempt modelConst1 [(5 : ℚ)] 1 l1Reg optimId att).2.1 = false) :=
  claim_C4_accept_or_exhaust modelConst1 [(5 : ℚ)] 1 none (.name "l1") (.inl 1)
    optimId none l1Reg rfl

/-- C9 counterexample: the public entry point takes no acceptance
predicate — on a forest whose prediction never equals the target it raises
the exhaustion error, while the underlying `compute_counterfactual` called
with the accept-everything predicate `done` succeeds on the same inputs. -/
theorem claim_C9_cx :
    isolationforest_generate_counterfactual modelConst0 [(5 : ℚ)] 1 none (.name "l1")
        (.inl 1) optimId true = .error noCfMsg ∧
      compute_counterfactual modelConst0 [(5 : ℚ)] 1 none (.name "l1") (.inl 1)
        optimId (some (fun _ => true)) = .ok ([5], 0, [0]) :=
  ⟨by with_unfolding_all rfl, by with_unfolding_all rfl⟩

/-- C9 (amended): the public entry point accepts model, x, target,
whitelist, regularization, C, optimizer and return_as_dict but no
acceptance parameter; it never forwards a predicate, so any result it
returns satisfies exact equality with the target. -/
theorem claim_C9_entry_exact_equality (model : IsolationForest) (x : Input)
    (y_target : ℤ) (wl : Option (List ℕ)) (regspec : RegSpec) (C : CParam)
    (optimize : Optimizer) (rad : Bool) (r : Input × ℤ × Input)
    (h : isolationforest_generate_counterfactual model x y_target wl regspec C
        optimize rad = .ok r) :
    r.2.1 = y_target := by
  unfold isolationforest_generate_counterfactual compute_counterfactual at h
  cases hreg : resolveRegularization regspec x with
  | error e => rw [hreg] at h; cases h
  | ok reg =>
    rw [hreg] at h
    have := searchAttempts_ok _ _ _ _ h
    simpa using this

/-- Witness for C9 (amended) on a run of the entry point that returns a
result. -/
theorem claim_C9_entry_exact_equality_witness :
    ((([(5 : ℚ)], (1 : ℤ), [(0 : ℚ)]) : Input × ℤ × Input)).2.1 = 1 :=
  claim_C9_entry_exact_equality modelConst1 [5] 1 none (.name "l1") (.inl 1) optimId
    true ([5], 1, [0]) (by with_unfolding_all rfl)

/-- Overwriting coordinates preserves the vector length. -/
lemma apply_adjustment_length (adj : List (ℕ × ℚ)) (x : Input) :
    (apply_adjustment x adj).length = x.length := by
  induction adj generalizing x with
  | nil => rfl
  | cons a rest ih =>
    obtain ⟨i, v⟩ := a
    rw [apply_adjustment, ih, List.length_set]

/-- Every per-tree candidate has the same length as the original input. -/
lemma mem_rawCandidates_length (m : IsoTreeModel) (x : Input) (y_target : ℤ) (reg : Reg)
    (cf : Input) (h : cf ∈ rawCandidates m x y_target reg) : cf.length = x.length := by
  unfold rawCandidates at h
  obtain ⟨a, _, rfl⟩ := List.mem_map.mp h
  exact apply_adjustment_length _ _

/-- Componentwise description of the vector delta. -/
lemma vecSub_getD (a b : Input) (i : ℕ) (ha : i < a.length) (hb : i < b.length) :
    (vecSub a b).getD i 0 = a.getD i 0 - b.getD i 0 := by
  have hl : i < (vecSub a b).length := by
    rw [vecSub, List.length_zipWith]
    omega
  rw [List.getD_eq_getElem?_getD, List.getElem?_eq_getElem hl,
    List.getD_eq_getElem?_getD, List.getElem?_eq_getElem ha,
    List.getD_eq_getElem?_getD, List.getElem?_eq_getElem hb]
  simp [vecSub, List.getElem_zipWith]

/-- The protected-attribute check passes exactly when every coordinate
that differs from the original lies in the whitelist; an unchanged
coordinate is never a violation. -/
lemma used_protected_eq_false_iff (x cf : Input) (w : List ℕ) (hlen : cf.length = x.length) :
    used_protected_attributes x cf w = false ↔
      ∀ i, i < x.length → cf.getD i 0 ≠ x.getD i 0 → i ∈ w := by
  have hdlen : (vecSub x cf).length = x.length := by
    rw [vecSub, List.length_zipWith, hlen]
    omega
  unfold used_protected_attributes
  simp only
  rw [List.any_eq_false]
  constructor
  · intro hfalse i hi hdiff
    have hmem : i ∈ List.range (vecSub x cf).length :=
      List.mem_range.mpr (by rw [hdlen]; exact hi)
    have hpi := hfalse i hmem
    rw [Bool.not_eq_true, Bool.and_eq_false_iff] at hpi
    rcases hpi with hw | hd
    · simpa using hw
    · exfalso
      have hz : (vecSub x cf).getD i 0 = 0 := by simpa using hd
      rw [vecSub_getD x cf i hi (by omega)] at hz
      exact hdiff (by linarith)
  · intro hall i hmem
    have hi : i < x.length := by
      have := List.mem_range.mp hmem
      omega
    rw [Bool.not_eq_true, Bool.and_eq_false_iff]
    by_cases hd : cf.getD i 0 = x.getD i 0
    · right
      have hz : (vecSub x cf).getD i 0 = 0 := by
        rw [vecSub_getD x cf i hi (by omega)]
        rw [hd]
        ring
      rw [List.getD_eq_getElem?_getD] at hz
      simp [hz]
    · left
      simp [hall i hi hd]

/-- C5: with a whitelist supplied, every surviving candidate of the
per-tree generator differs from `x` only at whitelisted indices, and every
generated candidate whose differing coordinates all lie in the whitelist
survives the filter (a coordinate equal to its original value is never
counted as a violation). -/
theorem claim_C5_whitelist_respected (m : IsoTreeModel) (x : Input) (y_target : ℤ)
    (w : List ℕ) (reg : Reg) :
    (∀ cf ∈ compute_counterfactuals_isolationtree m x y_target (some w) reg,
      ∀ i, i < x.length → cf.getD i 0 ≠ x.getD i 0 → i ∈ w) ∧
    (∀ cf ∈ rawCandidates m x y_target reg,
      (∀ i, i < x.length → cf.getD i 0 ≠ x.getD i 0 → i ∈ w) →
        cf ∈ compute_counterfactuals_isolationtree m x y_target (some w) reg) := by
  constructor
  · intro cf hcf i hi hdiff
    unfold compute_counterfactuals_isolationtree at hcf
    obtain ⟨hraw, hflt⟩ := List.mem_filter.mp hcf
    have hlen := mem_rawCandidates_length m x y_target reg cf hraw
    have hfalse : used_protected_attributes x cf w = false := by
      simpa using hflt
    exact (used_protected_eq_false_iff x cf w hlen).mp hfalse i hi hdiff
  · intro cf hraw hall
    unfold compute_counterfactuals_isolationtree
    apply List.mem_filter.mpr
    refine ⟨hraw, ?_⟩
    have hlen := mem_rawCandidates_length m x y_target reg cf hraw
    simpa using (used_protected_eq_false_iff x cf w hlen).mpr hall

/-- Witness for C5: the candidate `[0]` for `x = [5]` differs at index 0,
which the whitelist permits. -/
theorem claim_C5_whitelist_respected_witness : (0 : ℕ) ∈ [0] := by
  have heq : compute_counterfactuals_isolationtree tmod0 [(5 : ℚ)] 1 (some [0]) l1Reg =
      [[5], [0]] := by
    with_unfolding_all rfl
  exact (claim_C5_whitelist_respected tmod0 [(5 : ℚ)] 1 [0] l1Reg).1 [0]
    (by rw [heq]; norm_num) 0 (by norm_num) (by norm_num)

end Ceml
